import Mathlib

/-!
Verification of the Pattern-Analysis-Agent time-series core.

The TypeScript source is embedded shallowly:
* JavaScript numbers are modelled as `JQ := Option ℚ` — `none` stands for
  NaN (the result of `0/0`, `_.mean([])`, and arithmetic on NaN); all
  other arithmetic is exact rational arithmetic.  Comparisons with NaN
  are `false`, as in JavaScript.
* Functions that `throw` are embedded in `Except AnalysisError`.
* Methods live in namespaces matching their source file:
  `Ultimate` for `experts/ultimate.ts`, `StatsHelper` for
  `analyzers/statistics.ts`, `Detectors` for `analyzers/detectors.ts`,
  `PA` for `analyzers/PatternAnalyzer.ts`.
-/

/-- JavaScript number: a rational, or `none` for NaN. -/
abbrev JQ := Option ℚ

namespace JQ

/-- NaN-propagating addition. -/
def add (a b : JQ) : JQ := match a, b with
  | some x, some y => some (x + y)
  | _, _ => none

/-- NaN-propagating subtraction. -/
def sub (a b : JQ) : JQ := match a, b with
  | some x, some y => some (x - y)
  | _, _ => none

/-- NaN-propagating multiplication (`NaN * 0 = NaN` in JS, as here). -/
def mul (a b : JQ) : JQ := match a, b with
  | some x, some y => some (x * y)
  | _, _ => none

/-- Division: NaN when either argument is NaN or the divisor is zero.
In JS `x/0` with `x ≠ 0` is `±Infinity`, not NaN; in this development
every division site either has `x = 0` when the divisor is zero (so the
JS value is NaN) or is proved to have a nonzero divisor, so collapsing
both cases to `none` is faithful at every reachable call. -/
def div (a b : JQ) : JQ := match a, b with
  | some x, some y => if y = 0 then none else some (x / y)
  | _, _ => none

/-- JavaScript `>` : false when either side is NaN. -/
def gt (a b : JQ) : Bool := match a, b with
  | some x, some y => decide (x > y)
  | _, _ => false

/-- Sum of a list of JS numbers (NaN-propagating, `0` for the empty list,
matching lodash `_.sum`/`_.sumBy` folds). -/
def sum (l : List JQ) : JQ := l.foldr add (some 0)

/-- lodash `_.mean`: `_.sum(l) / l.length`; NaN on the empty list. -/
def mean (l : List JQ) : JQ := div (sum l) (some (l.length : ℚ))

@[simp] theorem add_some (x y : ℚ) : add (some x) (some y) = some (x + y) := rfl
@[simp] theorem sub_some (x y : ℚ) : sub (some x) (some y) = some (x - y) := rfl
@[simp] theorem mul_some (x y : ℚ) : mul (some x) (some y) = some (x * y) := rfl
@[simp] theorem add_none_left (b : JQ) : add none b = none := rfl
@[simp] theorem sub_none_left (b : JQ) : sub none b = none := rfl

theorem div_some_of_ne (x y : ℚ) (hy : y ≠ 0) :
    div (some x) (some y) = some (x / y) := by
  simp [div, hy]

end JQ

/-- Error codes of the analysis package (from `types.ts`). -/
inductive ErrorCode where
  | INSUFFICIENT_DATA
  | INVALID_DOMAIN
  | ANALYSIS_FAILED
  | CACHE_ERROR
deriving DecidableEq, Repr

/-- AnalysisError: message, code, and (as `context.error`) the code of a
wrapped original error when one exists. -/
structure AnalysisError where
  message : String
  code : ErrorCode
  contextError : Option ErrorCode
deriving DecidableEq, Repr

/-- AnalysisOptions (`domain?`, `contextWindow?`). -/
structure AnalysisOptions where
  domain : Option String := none
  contextWindow : Option ℕ := none
deriving DecidableEq, Repr

/-- JS `options.contextWindow || Math.max(10, Math.floor(data.length / 10))`:
`0` is falsy, so a missing or zero option falls back to the default. -/
def defaultContextWindow (cw : Option ℕ) (n : ℕ) : ℕ :=
  match cw with
  | none => max 10 (n / 10)
  | some c => if c = 0 then max 10 (n / 10) else c

theorem defaultContextWindow_pos (cw : Option ℕ) (n : ℕ) :
    0 < defaultContextWindow cw n := by
  cases cw with
  | none => simp [defaultContextWindow]
  | some c =>
    by_cases h : c = 0 <;> simp [defaultContextWindow, h]
    omega

/-- Mean of a list of rationals: NaN on the empty list (lodash `_.mean`),
exact otherwise. -/
def qmean (l : List ℚ) : JQ :=
  if l.length = 0 then none else some (l.sum / l.length)

/-- Population variance (`_.variance` is not part of lodash core; the
claims settled below depend only on variance being `0` exactly on
constant data and positive otherwise, which holds for either the
population or the sample convention). NaN on the empty list. -/
def qvariance (l : List ℚ) : JQ :=
  match qmean l with
  | none => none
  | some m => some ((l.map (fun x => (x - m) ^ 2)).sum / l.length)

theorem qmean_cons (x : ℚ) (l : List ℚ) :
    qmean (x :: l) = some ((x :: l).sum / (x :: l).length) := by
  simp [qmean]

namespace Ultimate

/-- PatternAnalyzer of `experts/ultimate.ts`.  Its constructor performs no
length check (unlike the one in `analyzers/PatternAnalyzer.ts`). -/
structure Analyzer where
  data : List ℚ
  timestamps : List ℚ
  domain : Option String
  contextWindow : ℕ
deriving Repr

/-- Constructor of the `ultimate.ts` PatternAnalyzer: stores the arrays
unchecked and defaults the context window. -/
def mk (data timestamps : List ℚ) (options : AnalysisOptions) : Analyzer :=
  { data := data
    timestamps := timestamps
    domain := options.domain
    contextWindow := defaultContextWindow options.contextWindow data.length }

/-- tricubeWeight: `|x| >= 1 ? 0 : (1 - |x|^3)^3`. -/
def tricubeWeight (x : ℚ) : ℚ :=
  if |x| ≥ 1 then 0 else (1 - |x| ^ 3) ^ 3

theorem tricubeWeight_zero : tricubeWeight 0 = 1 := by
  simp [tricubeWeight]

theorem tricubeWeight_nonneg (x : ℚ) : 0 ≤ tricubeWeight x := by
  unfold tricubeWeight
  split
  · exact le_refl 0
  · rename_i h
    push_neg at h
    have h3 : |x| ^ 3 ≤ 1 := by
      calc |x| ^ 3 ≤ 1 ^ 3 := by
            exact pow_le_pow_left₀ (abs_nonneg x) (le_of_lt h) 3
        _ = 1 := one_pow 3
    exact pow_nonneg (by linarith) 3

/-- getLocalWindow: the slice `[max(0, i-cw), min(n, i+cw+1))` of the data,
each value paired with the tricube weight of its slice-local position
divided by the context window (the slice-local index `j` is what the
source passes as `i` to `tricubeWeight(i / this.contextWindow)`). -/
def getLocalWindow (a : Analyzer) (index : ℕ) : List (ℚ × ℚ) :=
  let start := index - a.contextWindow
  let stop := min a.data.length (index + a.contextWindow + 1)
  ((a.data.drop start).take (stop - start)).enum.map
    (fun jv => (jv.2, tricubeWeight ((jv.1 : ℚ) / (a.contextWindow : ℚ))))

/-- computeLocalRegression (ultimate.ts variant): weighted mean of the
window; NaN if the weights sum to zero (they never do: the first weight
is `tricubeWeight 0 = 1`, see `computeRobustTrend_getD_eq_some`). -/
def computeLocalRegression (window : List (ℚ × ℚ)) : JQ :=
  JQ.div (some ((window.map (fun vw => vw.1 * vw.2)).sum))
         (some ((window.map (fun vw => vw.2)).sum))

/-- computeRobustTrend: LOESS-style smoothing, one local regression per
index. -/
def computeRobustTrend (a : Analyzer) : List JQ :=
  (List.range a.data.length).map
    (fun i => computeLocalRegression (getLocalWindow a i))

/-- computeAutocorrelation (ultimate.ts variant): for each lag `1..maxLag`
the lagged covariance divided by `count * variance`; NaN when the data is
empty (mean/variance NaN), when the variance is zero, or when no pair
exists at that lag (`count = 0`, division `0/0`). -/
def computeAutocorrelation (a : Analyzer) (maxLag : ℕ) : List JQ :=
  (List.range' 1 maxLag).map (fun lag =>
    match qmean a.data, qvariance a.data with
    | some m, some v =>
      let count := a.data.length - lag
      let s := ((List.range count).map
        (fun i => (a.data.getD i 0 - m) * (a.data.getD (i + lag) 0 - m))).sum
      JQ.div (some s) (some ((count : ℚ) * v))
    | _, _ => none)

/-- Peak of the autocorrelation curve: 1-based lag and coefficient. -/
structure Peak where
  index : ℕ
  value : ℚ
deriving DecidableEq, Repr

/-- findPeaks (ultimate.ts variant): strictly interior indices whose value
exceeds both neighbours; a NaN value or neighbour never qualifies
(JavaScript `>` against NaN is false).  The reported `index` is the
0-based position plus one, i.e. the lag. -/
def findPeaks (acf : List JQ) : List Peak :=
  (List.range acf.length).filterMap (fun i =>
    if 0 < i ∧ i + 1 < acf.length then
      match acf.getD (i - 1) none, acf.getD i none, acf.getD (i + 1) none with
      | some p, some v, some q =>
        if p < v ∧ q < v then some ⟨i + 1, v⟩ else none
      | _, _, _ => none
    else none)

/-- Detected cycle: period (lag of the peak), strength (its coefficient),
confidence. -/
structure Cycle where
  period : ℕ
  strength : ℚ
  confidence : ℚ
deriving DecidableEq, Repr

/-- assessPeriodConfidence:
`correlation * coverage * (1 - |0.5 - period/n|)` with
`coverage = period * floor(n/period) / n`.  Every call from
`detectPeriodicity` has `n ≥ 9` and `period ≥ 2`, so the divisions are
by nonzero numbers. -/
def assessPeriodConfidence (a : Analyzer) (period : ℕ) (correlation : ℚ) : ℚ :=
  let n : ℚ := (a.data.length : ℚ)
  let coverage : ℚ := ((period * (a.data.length / period) : ℕ) : ℚ) / n
  correlation * coverage * (1 - |1 / 2 - (period : ℚ) / n|)

/-- detectPeriodicity: autocorrelation up to `floor(n/3)`, peaks mapped to
cycles, sorted by descending strength (JS comparator
`(a, b) => b.strength - a.strength`; `Array.sort` is stable, as is
`mergeSort`). -/
def detectPeriodicity (a : Analyzer) : List Cycle :=
  let maxLag := a.data.length / 3
  let acf := computeAutocorrelation a maxLag
  ((findPeaks acf).map (fun p =>
      Cycle.mk p.index p.value (assessPeriodConfidence a p.index p.value))).mergeSort
    (fun c d => decide (d.strength ≤ c.strength))

/-- extractSeasonalComponent: all-zero when no cycle was detected;
otherwise the dominant-period bucket means tiled across the series.
Bucket `i` collects the data values whose index is congruent to `i`
modulo the dominant period. -/
def extractSeasonalComponent (a : Analyzer) : List JQ :=
  match detectPeriodicity a with
  | [] => List.replicate a.data.length (some 0)
  | p₀ :: _ =>
    let dp := p₀.period
    let pattern : List JQ := (List.range dp).map (fun i =>
      qmean (((List.range a.data.length).filter (fun j => j % dp = i)).map
        (fun j => a.data.getD j 0)))
    (List.range a.data.length).map (fun i => pattern.getD (i % dp) none)

/-- Modelled from the spec: `computeResiduals` is absent from `src/` (only
its caller `decomposeSeries` survives there); spec §4.2 says "Residual =
data − trend − seasonal, computed last to guarantee the decomposition
invariant". -/
def computeResiduals (data : List ℚ) (trend seasonal : List JQ) : List JQ :=
  (List.range data.length).map (fun i =>
    JQ.sub (JQ.sub (some (data.getD i 0)) (trend.getD i none))
      (seasonal.getD i none))

/-- Decomposition result. -/
structure Decomposition where
  trend : List JQ
  seasonal : List JQ
  residuals : List JQ
deriving Repr

/-- decomposeSeries: trend, then seasonal, then residuals from both. -/
def decomposeSeries (a : Analyzer) : Decomposition :=
  let trend := computeRobustTrend a
  let seasonal := extractSeasonalComponent a
  { trend := trend
    seasonal := seasonal
    residuals := computeResiduals a.data trend seasonal }

/-- calculateValueAtRisk, parametrized by the list of returns:
`calculateReturns` maps the series through `Math.log`, which has no exact
rational embedding, so the empirical return distribution itself is the
parameter (the VaR claim quantifies over that distribution).  The returns
are sorted ascending (`_.sortBy`) and indexed at
`floor((1 - confidence) * returns.length)`; an out-of-range index is
JavaScript `undefined`, here `none`. -/
def calculateValueAtRisk (returns : List ℚ) (confidence : ℚ) : Option ℚ :=
  let sorted := returns.mergeSort (fun a b => decide (a ≤ b))
  let index : ℤ := ⌊(1 - confidence) * (returns.length : ℚ)⌋
  if index < 0 then none else sorted.get? index.toNat

end Ultimate

namespace StatsHelper

/-- generateWeights, tricube branch: the weight at position `i` of a
length-`L` slice is tricube of `x = |2i/(L-1) - 1|`, via the JS test
`x <= 1 ? (1-x^3)^3 : 0`.  For `L = 1` the position is `0/0 = NaN` in JS
and `NaN <= 1` is false, so the single weight is `0`. -/
def generateWeights (length : ℕ) : List ℚ :=
  if length = 1 then [0]
  else (List.range length).map (fun i =>
    let x : ℚ := |2 * (i : ℚ) / ((length : ℚ) - 1) - 1|
    if x ≤ 1 then (1 - x ^ 3) ^ 3 else 0)

/-- computeLocalRegression (statistics.ts variant): tricube-weighted mean
of the slice `[max(0, i-⌊w/2⌋), min(n, i+⌊w/2⌋+1))`.  NaN (`0/0`) when the
weights sum to zero, which happens exactly for slices of length 1 or 2. -/
def computeLocalRegression (data : List ℚ) (window : ℕ) (index : ℕ) : JQ :=
  let start := index - window / 2
  let stop := min data.length (index + window / 2 + 1)
  let slice := (data.drop start).take (stop - start)
  let weights := generateWeights slice.length
  JQ.div (some ((slice.zip weights).map (fun vw => vw.1 * vw.2)).sum)
         (some weights.sum)

/-- Entry of the autocorrelation series.  The source also carries a
`significance` field computed from the coefficient and the pair count by a
t-statistic and the Zelen–Severo normal-CDF polynomial; that transform
uses `Math.sqrt`/`Math.exp`, has no exact rational embedding, and no claim
mentions it, so the embedding keeps lag and coefficient only. -/
structure ACFEntry where
  lag : ℕ
  coefficient : JQ
deriving DecidableEq, Repr

/-- calculateAutocorrelation: for lag `1..maxLag` (default 20 at both call
sites), coefficient = lagged covariance over `count * variance`.  The
function is total — the source has no failure path: a zero variance (or an
empty pair set) makes the division `0/0`, i.e. a NaN coefficient, not an
error. -/
def calculateAutocorrelation (data : List ℚ) (maxLag : ℕ) :
    List ACFEntry :=
  (List.range' 1 maxLag).map (fun lag =>
    match qmean data, qvariance data with
    | some m, some v =>
      let count := data.length - lag
      let s := ((List.range count).map
        (fun i => (data.getD i 0 - m) * (data.getD (i + lag) 0 - m))).sum
      ⟨lag, JQ.div (some s) (some ((count : ℚ) * v))⟩
    | _, _ => ⟨lag, none⟩)

end StatsHelper

namespace Detectors

/-- Trend segment; the source field `end` is the reserved keyword, written
`«end»` here. -/
structure TrendSegment where
  start : ℕ
  «end» : ℕ
  slope : JQ
  confidence : JQ
deriving DecidableEq, Repr

/-- Modelled from the spec: `analyzeTrendSegment` is absent from `src/`
(only its caller `analyzeTrends` survives there); spec §4.4 — "slope =
linear-fit slope of the segment and confidence = fit quality (e.g.,
normalized R²)".  Modelled as the least-squares slope over positions
`0..len-1` and the regression R² (the squared index/value correlation),
in NaN-propagating arithmetic: a constant or too-short segment has
`0/0 = NaN` confidence. -/
def analyzeTrendSegment (seg : List JQ) : JQ × JQ :=
  let xs : List JQ := (List.range seg.length).map (fun i => some (i : ℚ))
  let xbar := JQ.mean xs
  let ybar := JQ.mean seg
  let sxy := JQ.sum (List.zipWith
    (fun x y => JQ.mul (JQ.sub x xbar) (JQ.sub y ybar)) xs seg)
  let sxx := JQ.sum (xs.map (fun x => JQ.mul (JQ.sub x xbar) (JQ.sub x xbar)))
  let syy := JQ.sum (seg.map (fun y => JQ.mul (JQ.sub y ybar) (JQ.sub y ybar)))
  (JQ.div sxy sxx, JQ.div (JQ.mul sxy sxy) (JQ.mul sxx syy))

/-- analyzeTrends.  The change-point list is a parameter: modelled from
the spec, `findTrendChangePoints` is absent from `src/`; spec §4.4 scans
the smoothed series for shift points, so its output is a list of boundary
indices in scan (ascending) order.  The body is from `detectors.ts`: smooth
every index with the statistics-helper local regression, slice the
smoothed series between consecutive change points, fit each slice, and
keep only segments whose confidence exceeds 0.5 (a NaN confidence fails
the JS `>` test and is dropped too). -/
def analyzeTrends (data : List ℚ) (windowSize : ℕ) (changePoints : List ℕ) :
    List TrendSegment :=
  let smoothed := (List.range data.length).map
    (fun i => StatsHelper.computeLocalRegression data windowSize i)
  (changePoints.zip changePoints.tail).filterMap (fun se =>
    let seg := (smoothed.drop se.1).take (se.2 - se.1)
    let fit := analyzeTrendSegment seg
    if JQ.gt fit.2 (some (1 / 2)) then
      some ⟨se.1, se.2, fit.1, fit.2⟩
    else none)

end Detectors

namespace PA

/-- PatternAnalyzer of `analyzers/PatternAnalyzer.ts` (the variant whose
constructor checks the lengths). -/
structure Analyzer where
  data : List ℚ
  timestamps : List ℚ
  domain : Option String
  contextWindow : ℕ
deriving Repr

/-- Constructor of `analyzers/PatternAnalyzer.ts`: throws an
`AnalysisError` with code `INSUFFICIENT_DATA` — the only length-mismatch
failure in the code; the `ErrorCode` enum of `types.ts` has no
dimension-mismatch member — when the arrays differ in length. -/
def mk (data timestamps : List ℚ) (options : AnalysisOptions) :
    Except AnalysisError Analyzer :=
  if data.length ≠ timestamps.length then
    .error ⟨"Data and timestamps must have same length",
      ErrorCode.INSUFFICIENT_DATA, none⟩
  else
    .ok { data := data
          timestamps := timestamps
          domain := options.domain
          contextWindow := defaultContextWindow options.contextWindow
            data.length }

/-- Fields of the `analyzeTimeSeries` result that the confidence
aggregator reads: `trends` (their `confidence` fields), the seasonality
`strength`, and the anomalies' `confidence` fields. -/
structure TimeSeriesSummary where
  trends : List Detectors.TrendSegment
  seasonalityStrength : JQ
  anomalyConfidences : List JQ
deriving Repr

/-- assessPatternStrength: the mean of the average trend-segment
confidence, the seasonality strength, and the average anomaly confidence.
lodash `_.mean` of an empty list is NaN, so an empty trend-segment or
anomaly list makes the whole term NaN — not 0. -/
def assessPatternStrength (ts : TimeSeriesSummary) : JQ :=
  let trendStrength := JQ.mean (ts.trends.map (·.confidence))
  let seasonalStrength := ts.seasonalityStrength
  let anomalyConfidence := JQ.mean ts.anomalyConfidences
  JQ.div (JQ.add (JQ.add trendStrength seasonalStrength) anomalyConfidence)
    (some 3)

/-- calculateOverallConfidence: mean of data quality, pattern strength,
and statistical significance.  Modelled from the spec where `src/` runs
out: `assessDataQuality`'s timeliness factor uses `Math.exp` (no exact
rational embedding) and `assessStatisticalSignificance` calls
`testNormality`, `testStationarity` and `assessVarianceStability`, none of
which appear in `src/`; spec §4.9 specifies each as a `[0,1]`-normalized
score, so the two are parameters here and the theorems hypothesize the
spec's `[0,1]` bounds for them. -/
def calculateOverallConfidence (dataQuality : JQ) (ts : TimeSeriesSummary)
    (statisticalSignificance : JQ) : JQ :=
  JQ.div
    (JQ.add (JQ.add dataQuality (assessPatternStrength ts))
      statisticalSignificance)
    (some 3)

/-- analyzeDomainSpecific over a payload type `ι` for the insights: the
three domain analyzers (`analyzeFinancialData` etc., absent from `src/`,
modelled from the spec as the parameters `fin`/`med`/`env`) are selected by
the domain tag; a missing — or empty, which is falsy in JS — domain yields
`null`; any other tag throws `INVALID_DOMAIN`. -/
def analyzeDomainSpecific {ι : Type} (fin med env : Except AnalysisError ι)
    (domain : Option String) : Except AnalysisError (Option ι) :=
  match domain with
  | none => .ok none
  | some d =>
    if d = "" then .ok none
    else if d = "financial" then fin.map some
    else if d = "medical" then med.map some
    else if d = "environmental" then env.map some
    else .error ⟨"Invalid domain specified", ErrorCode.INVALID_DOMAIN, none⟩

/-- Result of `analyzeHolistically`, generic in the section payloads. -/
structure Holistic (α β γ δ : Type) where
  timeSeries : α
  statistics : β
  domainInsights : Option γ
  correlations : δ
deriving Repr

/-- analyzeHolistically: the whole body — time series, statistics, domain
insights, correlations — runs inside one `try`; any error from any step is
caught and rethrown as `ANALYSIS_FAILED` with the original error attached.
The step computations themselves are parameters (their internals are
spread over files missing from `src/`); the facade's sequencing and error
policy is what this embeds. -/
def analyzeHolistically {α β γ δ : Type}
    (tsRes : Except AnalysisError α) (statsRes : Except AnalysisError β)
    (fin med env : Except AnalysisError γ)
    (corrRes : Except AnalysisError δ) (domain : Option String) :
    Except AnalysisError (Holistic α β γ δ) :=
  match (do
    let ts ← tsRes
    let st ← statsRes
    let di ← analyzeDomainSpecific fin med env domain
    let co ← corrRes
    pure (Holistic.mk ts st di co) : Except AnalysisError (Holistic α β γ δ))
  with
  | .ok r => .ok r
  | .error e => .error ⟨"Analysis failed", ErrorCode.ANALYSIS_FAILED,
      some e.code⟩

end PA

namespace CacheModel

/-- Program counter of one `analyzePatterns` handler run for a fixed
fingerprint: `start` (has not read the cache yet), `computing` (saw a
miss, analyzer still running), `done`. -/
inductive Pc where
  | start
  | computing
  | done
deriving DecidableEq, Repr

/-- Shared state of two concurrent handler runs with the same fingerprint
(threads `false` and `true`): whether the fingerprint is cached, how many
analyzer computations have run, and each thread's program counter.  The
handler's only suspension point is around the analyzer
(`await analyzer.analyzeHolistically()`), so `cache.get` and the later
compute-then-`cache.set` are separate atomic steps — exactly the source's
unsynchronized check-then-act. -/
structure State where
  cached : Bool
  computations : ℕ
  pc0 : Pc
  pc1 : Pc
deriving DecidableEq, Repr

/-- One scheduler step of a thread: at `start`, read the cache (hit →
done without computing, miss → proceed to compute); at `computing`, finish
the analysis, increment the computation count, and write the cache;
`done` threads do nothing. -/
def stepThread (cached : Bool) (computations : ℕ) (p : Pc) :
    Bool × ℕ × Pc :=
  match p with
  | Pc.start =>
    if cached then (cached, computations, Pc.done)
    else (cached, computations, Pc.computing)
  | Pc.computing => (true, computations + 1, Pc.done)
  | Pc.done => (cached, computations, p)

/-- Scheduler step: run one step of thread `t`. -/
def step (s : State) (t : Bool) : State :=
  if t then
    let r := stepThread s.cached s.computations s.pc1
    { s with cached := r.1, computations := r.2.1, pc1 := r.2.2 }
  else
    let r := stepThread s.cached s.computations s.pc0
    { s with cached := r.1, computations := r.2.1, pc0 := r.2.2 }

/-- Run a schedule (list of thread choices) from a state. -/
def run (s : State) (sched : List Bool) : State :=
  sched.foldl step s

/-- Initial state: empty cache, no computation yet, both requests pending. -/
def init : State :=
  { cached := false, computations := 0, pc0 := Pc.start, pc1 := Pc.start }

/-- Weight of a program counter: 1 once the thread is done, else 0; each
thread increments the computation count at most once. -/
def pcWeight : Pc → ℕ
  | Pc.done => 1
  | _ => 0

/-- Invariant: the computation count never exceeds the combined weight. -/
def inv (s : State) : Prop :=
  s.computations ≤ pcWeight s.pc0 + pcWeight s.pc1

theorem inv_step (s : State) (t : Bool) (h : inv s) : inv (step s t) := by
  unfold inv step stepThread pcWeight at *
  cases t <;> cases h0 : s.pc0 <;> cases h1 : s.pc1 <;>
    simp [h0, h1] at h ⊢ <;> first
      | omega
      | (split_ifs <;> simp <;> omega)

theorem inv_run (s : State) (sched : List Bool) (h : inv s) :
    inv (run s sched) := by
  induction sched generalizing s with
  | nil => exact h
  | cons t rest ih => exact ih (step s t) (inv_step s t h)

end CacheModel

/-! ## Claim theorems -/

/-- C2 (counterexample): constructing an analyzer with
`len(data) ≠ len(timestamps)` does not always fail with a
`DimensionMismatch` error.  The `experts/ultimate.ts` constructor performs
no length check at all — it succeeds and stores the mismatched arrays —
and the `analyzers/PatternAnalyzer.ts` constructor that does check throws
an `AnalysisError` whose code is `INSUFFICIENT_DATA`, the same kind the
code uses for too-short series; the `ErrorCode` enum has no
dimension-mismatch member. -/
theorem constructor_mismatch_counterexample :
    (Ultimate.mk [0] [] {}).data.length ≠
      (Ultimate.mk [0] [] {}).timestamps.length ∧
    PA.mk [0] [] {} = .error ⟨"Data and timestamps must have same length",
      ErrorCode.INSUFFICIENT_DATA, none⟩ := by
  constructor
  · simp [Ultimate.mk]
  · simp [PA.mk]

/-- C2 (amended): constructing the `analyzers/PatternAnalyzer.ts` analyzer
with `len(data) ≠ len(timestamps)` always fails — with an `AnalysisError`
of code `INSUFFICIENT_DATA` (there is no `DimensionMismatch` kind in the
code) — and produces no partial result; the `experts/ultimate.ts`
constructor performs no such check. -/
theorem constructor_mismatch_insufficient_data (data ts : List ℚ)
    (opts : AnalysisOptions) (h : data.length ≠ ts.length) :
    PA.mk data ts opts = .error ⟨"Data and timestamps must have same length",
      ErrorCode.INSUFFICIENT_DATA, none⟩ := by
  simp [PA.mk, h]

/-- C2 (witness): the amended theorem at `data = [0]`, `timestamps = []`. -/
theorem constructor_mismatch_insufficient_data_witness :
    ([0] : List ℚ).length ≠ ([] : List ℚ).length ∧
    PA.mk [0] [] {} = .error ⟨"Data and timestamps must have same length",
      ErrorCode.INSUFFICIENT_DATA, none⟩ :=
  ⟨by decide, constructor_mismatch_insufficient_data [0] [] {} (by decide)⟩

/-- C3 (counterexample): an unrecognized domain tag is not fatal for the
domain-insights step only — the whole `analyzeHolistically` call fails.
With every other step succeeding and domain `"foo"`, the facade returns an
error (`ANALYSIS_FAILED` wrapping `INVALID_DOMAIN`), not a result carrying
the time-series, statistics, and correlations sections. -/
theorem invalid_domain_counterexample :
    PA.analyzeHolistically (α := Unit) (β := Unit) (γ := Unit) (δ := Unit)
      (.ok ()) (.ok ()) (.ok ()) (.ok ()) (.ok ()) (.ok ()) (some "foo") =
    .error ⟨"Analysis failed", ErrorCode.ANALYSIS_FAILED,
      some ErrorCode.INVALID_DOMAIN⟩ := by
  simp [PA.analyzeHolistically, PA.analyzeDomainSpecific]
  rfl

/-- C3 (amended): an unrecognized domain tag makes `analyzeDomainSpecific`
throw `INVALID_DOMAIN`, which the `try` around the whole of
`analyzeHolistically` catches and rethrows as `ANALYSIS_FAILED` with the
original code attached: the entire call fails and no section is returned,
whatever the other steps produced. -/
theorem invalid_domain_fails_whole_analysis {α β γ δ : Type}
    (tsv : α) (stv : β) (fv mv ev : γ) (cov : δ) (d : String)
    (h0 : d ≠ "") (h1 : d ≠ "financial") (h2 : d ≠ "medical")
    (h3 : d ≠ "environmental") :
    PA.analyzeHolistically (.ok tsv) (.ok stv) (.ok fv) (.ok mv) (.ok ev)
      (.ok cov) (some d) =
    .error ⟨"Analysis failed", ErrorCode.ANALYSIS_FAILED,
      some ErrorCode.INVALID_DOMAIN⟩ := by
  simp [PA.analyzeHolistically, PA.analyzeDomainSpecific, h0, h1, h2, h3]
  rfl

/-- C3 (witness): the amended theorem at domain `"foo"` and trivial
section payloads. -/
theorem invalid_domain_fails_whole_analysis_witness :
    ("foo" ≠ "" ∧ "foo" ≠ "financial" ∧ "foo" ≠ "medical" ∧
      "foo" ≠ "environmental") ∧
    PA.analyzeHolistically (α := Unit) (β := Unit) (γ := Unit) (δ := Unit)
      (.ok ()) (.ok ()) (.ok ()) (.ok ()) (.ok ()) (.ok ()) (some "foo") =
    .error ⟨"Analysis failed", ErrorCode.ANALYSIS_FAILED,
      some ErrorCode.INVALID_DOMAIN⟩ :=
  ⟨⟨by decide, by decide, by decide, by decide⟩,
    invalid_domain_fails_whole_analysis () () () () () () "foo"
      (by decide) (by decide) (by decide) (by decide)⟩

/-- C7 (counterexample): on the all-equal series `[5,5,5,5,5,5]` (variance
zero), `calculateAutocorrelation` does not fail with a `DegenerateInput`
error — no such error kind exists and the function has no failure path; it
returns a full result of 20 lag entries whose coefficients are all NaN
(undefined values for the variance-dependent metric). -/
theorem zero_variance_acf_counterexample :
    (StatsHelper.calculateAutocorrelation [5, 5, 5, 5, 5, 5] 20).map
      StatsHelper.ACFEntry.coefficient = List.replicate 20 none ∧
    (StatsHelper.calculateAutocorrelation [5, 5, 5, 5, 5, 5] 20).length
      = 20 := by
  constructor
  · norm_num [StatsHelper.calculateAutocorrelation, qmean, qvariance,
      JQ.div, List.range']
    rfl
  · simp [StatsHelper.calculateAutocorrelation]

/-- C7 (amended): on any constant series the autocorrelation computation
never throws and never crashes: it returns one entry per lag `1..maxLag`,
and every variance-dependent coefficient is NaN (`0/0`), not a number. -/
theorem zero_variance_acf_returns_nan (n maxLag : ℕ) (c : ℚ) :
    (StatsHelper.calculateAutocorrelation (List.replicate n c) maxLag).map
      StatsHelper.ACFEntry.coefficient = List.replicate maxLag none ∧
    (StatsHelper.calculateAutocorrelation (List.replicate n c)
      maxLag).length = maxLag := by
  constructor
  · rw [List.eq_replicate_iff]
    refine ⟨by simp [StatsHelper.calculateAutocorrelation], ?_⟩
    intro b hb
    simp only [StatsHelper.calculateAutocorrelation, List.map_map,
      List.mem_map] at hb
    obtain ⟨lag, _, rfl⟩ := hb
    cases n with
    | zero =>
      simp [qmean]
    | succ m =>
      have hm : qmean (List.replicate (m + 1) c) = some c := by
        have hne : ((m : ℚ) + 1) ≠ 0 := by positivity
        simp [qmean, List.sum_replicate, nsmul_eq_mul]
        field_simp
      have hv : qvariance (List.replicate (m + 1) c) = some 0 := by
        unfold qvariance
        rw [hm]
        simp [List.map_replicate, List.sum_replicate]
      simp [hm, hv, JQ.div]
  · simp [StatsHelper.calculateAutocorrelation]

/-- C9 (counterexample): the `analyzePatterns` handler does not ensure at
most one computation per fingerprint.  Under the interleaving
get(0), get(1), compute(0), compute(1) — both threads read the cache
before either has written it — both requests run the full holistic
computation: the count reaches 2. -/
theorem cache_race_counterexample :
    (CacheModel.run CacheModel.init [false, true, false, true]).computations
      = 2 := by
  decide

/-- C9 (amended): the handler is an unsynchronized get–compute–set with no
in-flight registry: each request computes at most once (so any schedule of
the two same-fingerprint requests performs at most two computations, and
two is reachable), and a request whose cache read happens after the other
request's write hits the cache and performs no computation — as in the
serialized schedule get(0), compute(0), get(1), which performs exactly
one. -/
theorem cache_no_inflight_join (sched : List Bool) :
    (CacheModel.run CacheModel.init sched).computations ≤ 2 ∧
    (CacheModel.run CacheModel.init [false, false, true]).computations
      = 1 := by
  constructor
  · have h := CacheModel.inv_run CacheModel.init sched (by
      simp [CacheModel.inv, CacheModel.init, CacheModel.pcWeight])
    unfold CacheModel.inv at h
    have h0 : ∀ p : CacheModel.Pc, CacheModel.pcWeight p ≤ 1 := by
      intro p; cases p <;> simp [CacheModel.pcWeight]
    have := h0 (CacheModel.run CacheModel.init sched).pc0
    have := h0 (CacheModel.run CacheModel.init sched).pc1
    omega
  · decide

/-- C5: for every non-empty empirical return distribution, the
Value-at-Risk read off the ascending sorted returns at index
`floor((1-confidence)·len)` is monotone in the confidence level:
`VaR(0.99) ≤ VaR(0.95)`. -/
theorem var_ordering (returns : List ℚ) (h : returns ≠ []) :
    ∃ v99 v95,
      Ultimate.calculateValueAtRisk returns (99 / 100) = some v99 ∧
      Ultimate.calculateValueAtRisk returns (95 / 100) = some v95 ∧
      v99 ≤ v95 := by
  have hlen : 0 < returns.length := List.length_pos.mpr h
  set n := returns.length with hn
  set sorted := returns.mergeSort (fun a b => decide (a ≤ b)) with hs
  have hslen : sorted.length = n := by
    rw [hs, List.length_mergeSort]
  have hsorted : sorted.Sorted (· ≤ ·) := by
    have := @List.sorted_mergeSort ℚ (fun a b : ℚ => decide (a ≤ b))
      (fun a b c hab hbc => by
        simp only [decide_eq_true_eq] at *
        exact le_trans hab hbc)
      (fun a b => by
        simp only [Bool.or_eq_true, decide_eq_true_eq]
        exact le_total a b)
      returns
    exact this.imp (fun hab => by simpa using hab)
  -- the two indices
  have hq99 : (0 : ℚ) ≤ (1 - 99 / 100) * (n : ℚ) := by positivity
  have hq95 : (0 : ℚ) ≤ (1 - 95 / 100) * (n : ℚ) := by positivity
  have hi99 : (0 : ℤ) ≤ ⌊(1 - 99 / 100 : ℚ) * (n : ℚ)⌋ := Int.floor_nonneg.mpr hq99
  have hi95 : (0 : ℤ) ≤ ⌊(1 - 95 / 100 : ℚ) * (n : ℚ)⌋ := Int.floor_nonneg.mpr hq95
  have hle : ⌊(1 - 99 / 100 : ℚ) * (n : ℚ)⌋ ≤ ⌊(1 - 95 / 100 : ℚ) * (n : ℚ)⌋ := by
    apply Int.floor_le_floor
    have : (0 : ℚ) ≤ (n : ℚ) := by positivity
    nlinarith
  have hlt : ⌊(1 - 95 / 100 : ℚ) * (n : ℚ)⌋ < (n : ℤ) := by
    apply Int.floor_lt.mpr
    push_cast
    have hnq : (0 : ℚ) < (n : ℚ) := by exact_mod_cast hlen
    nlinarith
  have hlt99 : ⌊(1 - 99 / 100 : ℚ) * (n : ℚ)⌋ < (n : ℤ) := lt_of_le_of_lt hle hlt
  have ht95 : (⌊(1 - 95 / 100 : ℚ) * (n : ℚ)⌋).toNat < sorted.length := by
    rw [hslen]; omega
  have ht99 : (⌊(1 - 99 / 100 : ℚ) * (n : ℚ)⌋).toNat < sorted.length := by
    rw [hslen]; omega
  refine ⟨sorted.get ⟨_, ht99⟩, sorted.get ⟨_, ht95⟩, ?_, ?_, ?_⟩
  · unfold Ultimate.calculateValueAtRisk
    rw [if_neg (not_lt.mpr hi99), List.get?_eq_get ht99]
  · unfold Ultimate.calculateValueAtRisk
    rw [if_neg (not_lt.mpr hi95), List.get?_eq_get ht95]
  · exact hsorted.rel_get_of_le (by simp [Fin.le_def]; omega)

/-- C5 (witness): the ordering theorem at the concrete return
distribution `[3, -5, 2, -1]`. -/
theorem var_ordering_witness :
    ([3, -5, 2, -1] : List ℚ) ≠ [] ∧
    ∃ v99 v95,
      Ultimate.calculateValueAtRisk [3, -5, 2, -1] (99 / 100) = some v99 ∧
      Ultimate.calculateValueAtRisk [3, -5, 2, -1] (95 / 100) = some v95 ∧
      v99 ≤ v95 :=
  ⟨by decide, var_ordering [3, -5, 2, -1] (by decide)⟩

/-- Sum of a list of defined values in `[0,1]` is defined and between `0`
and the length. -/
theorem JQ.sum_bounded (l : List JQ)
    (h : ∀ x ∈ l, ∃ q, x = some q ∧ 0 ≤ q ∧ q ≤ 1) :
    ∃ s, JQ.sum l = some s ∧ 0 ≤ s ∧ s ≤ (l.length : ℚ) := by
  induction l with
  | nil => exact ⟨0, rfl, le_refl 0, by simp⟩
  | cons x xs ih =>
    obtain ⟨q, hx, hq0, hq1⟩ := h x (List.mem_cons_self x xs)
    obtain ⟨s, hs, hs0, hs1⟩ := ih (fun y hy => h y (List.mem_cons_of_mem x hy))
    refine ⟨q + s, ?_, by linarith, ?_⟩
    · simp only [JQ.sum, List.foldr_cons] at hs ⊢
      rw [hx, hs]
      rfl
    · simp only [List.length_cons]
      push_cast
      linarith

/-- Mean of a non-empty list of defined values in `[0,1]` is defined and
in `[0,1]`. -/
theorem JQ.mean_bounded (l : List JQ) (hne : l ≠ [])
    (h : ∀ x ∈ l, ∃ q, x = some q ∧ 0 ≤ q ∧ q ≤ 1) :
    ∃ m, JQ.mean l = some m ∧ 0 ≤ m ∧ m ≤ 1 := by
  obtain ⟨s, hs, hs0, hs1⟩ := JQ.sum_bounded l h
  have hlen : 0 < l.length := List.length_pos.mpr hne
  have hlq : (0 : ℚ) < (l.length : ℚ) := by exact_mod_cast hlen
  refine ⟨s / l.length, ?_, by positivity, ?_⟩
  · unfold JQ.mean
    rw [hs, JQ.div_some_of_ne _ _ (ne_of_gt hlq)]
  · rw [div_le_one hlq]
    exact hs1

/-- C4 (counterexample): for an analysis with no trend segments and no
anomalies — which the claim itself admits ("series for which no trend
segments … or no anomalies are detected") — `metadata.confidence` is not a
number in `[0,1]` and the pattern-strength term is not 0: lodash
`_.mean([])` is NaN, so the pattern-strength term and with it the overall
confidence are NaN, even with perfect data-quality and significance
scores. -/
theorem confidence_nan_counterexample :
    PA.calculateOverallConfidence (some 1)
      ⟨[], some 0, []⟩ (some 1) = none ∧
    PA.assessPatternStrength ⟨[], some 0, []⟩ ≠ some 0 := by
  constructor
  · rfl
  · intro h
    exact Option.noConfusion h

/-- C4 (amended): `metadata.confidence` lies in `[0,1]` for inputs whose
pattern components are all present — at least one trend segment and at
least one anomaly, each with a defined confidence in `[0,1]`, and a defined
seasonality strength in `[0,1]` — and whose data-quality and
statistical-significance scores are in `[0,1]`; when trend segments or
anomalies are absent the pattern-strength term is NaN (mean of an empty
list), not 0, and the confidence is undefined
(`confidence_nan_counterexample`). -/
theorem confidence_bounds (dq ss : ℚ) (ts : PA.TimeSeriesSummary)
    (hdq : 0 ≤ dq ∧ dq ≤ 1) (hss : 0 ≤ ss ∧ ss ≤ 1)
    (htr : ts.trends ≠ [])
    (htc : ∀ t ∈ ts.trends, ∃ q,
      Detectors.TrendSegment.confidence t = some q ∧ 0 ≤ q ∧ q ≤ 1)
    (hsea : ∃ s0, ts.seasonalityStrength = some s0 ∧ 0 ≤ s0 ∧ s0 ≤ 1)
    (han : ts.anomalyConfidences ≠ [])
    (hanc : ∀ x ∈ ts.anomalyConfidences, ∃ q, x = some q ∧ 0 ≤ q ∧ q ≤ 1) :
    ∃ c, PA.calculateOverallConfidence (some dq) ts (some ss) = some c ∧
      0 ≤ c ∧ c ≤ 1 := by
  obtain ⟨tm, htm, htm0, htm1⟩ := JQ.mean_bounded
    (ts.trends.map Detectors.TrendSegment.confidence)
    (by simpa using htr)
    (by
      intro x hx
      obtain ⟨t, ht, rfl⟩ := List.mem_map.mp hx
      exact htc t ht)
  obtain ⟨s0, hs0eq, hs00, hs01⟩ := hsea
  obtain ⟨am, ham, ham0, ham1⟩ := JQ.mean_bounded ts.anomalyConfidences han hanc
  have hps : PA.assessPatternStrength ts = some ((tm + s0 + am) / 3) := by
    unfold PA.assessPatternStrength
    rw [htm, hs0eq, ham]
    simp only [JQ.add_some]
    rw [JQ.div_some_of_ne _ _ (by norm_num)]
  have hps0 : 0 ≤ (tm + s0 + am) / 3 := by positivity
  refine ⟨(dq + (tm + s0 + am) / 3 + ss) / 3, ?_,
    by have := hdq.1; have := hss.1; positivity, ?_⟩
  · unfold PA.calculateOverallConfidence
    rw [hps]
    simp only [JQ.add_some]
    rw [JQ.div_some_of_ne _ _ (by norm_num)]
  · have hps1 : (tm + s0 + am) / 3 ≤ 1 := by linarith
    have hps0 : 0 ≤ (tm + s0 + am) / 3 := by positivity
    linarith

/-- C4 (witness): the bounds theorem at a concrete analysis summary with
one trend segment (confidence 3/4), seasonality strength 1/2, one anomaly
(confidence 1), and data-quality/significance scores 1 and 1/2. -/
theorem confidence_bounds_witness :
    ((0 : ℚ) ≤ 1 ∧ (1 : ℚ) ≤ 1) ∧
    ∃ c, PA.calculateOverallConfidence (some 1)
      ⟨[⟨0, 1, some 1, some (3 / 4)⟩], some (1 / 2), [some 1]⟩
      (some (1 / 2)) = some c ∧ 0 ≤ c ∧ c ≤ 1 :=
  ⟨⟨by norm_num, by norm_num⟩,
    confidence_bounds 1 (1 / 2)
      ⟨[⟨0, 1, some 1, some (3 / 4)⟩], some (1 / 2), [some 1]⟩
      ⟨by norm_num, by norm_num⟩ ⟨by norm_num, by norm_num⟩
      (by simp)
      (by
        intro t ht
        simp only [List.mem_singleton] at ht
        exact ⟨3 / 4, by rw [ht], by norm_num, by norm_num⟩)
      ⟨1 / 2, rfl, by norm_num, by norm_num⟩
      (by simp)
      (by
        intro x hx
        simp only [List.mem_singleton] at hx
        exact ⟨1, by rw [hx], by norm_num, by norm_num⟩)⟩

/-- Consecutive boundary pairs of an ascending index list satisfy: the
right end of an earlier pair is at most the left end of a later pair. -/
theorem zip_tail_pairwise (l : List ℕ) (h : l.Sorted (· ≤ ·)) :
    (l.zip l.tail).Pairwise (fun a b => a.2 ≤ b.1) := by
  induction l with
  | nil => simp
  | cons x l' ih =>
    cases l' with
    | nil => simp
    | cons y r =>
      have hyr : (y :: r).Sorted (· ≤ ·) := h.of_cons
      refine List.Pairwise.cons ?_ (ih hyr)
      intro b hb
      have hb1 : b.1 ∈ y :: r := by
        have := List.of_mem_zip
          (show (b.1, b.2) ∈ (y :: r).zip ((y :: r).tail) by simpa using hb)
        exact this.1
      rcases List.mem_cons.mp hb1 with h1 | h1
      · simp [h1]
      · exact List.rel_of_sorted_cons hyr b.1 h1

/-- Concrete fixture for the trend-segment claim: twelve points forming a
rising run, a V-shaped middle run (which fits a line badly), and another
rising run. -/
def gapData : List ℚ := [9, 0, 1, 2, 5, 0, 5, 10, 11, 12, 9, 9]

/-- C8 (counterexample): the returned trend segments are not contiguous.
On `gapData` with window 2 and ascending change points `[1, 4, 7, 10]`,
the middle candidate segment (indices 4–7, the V shape, fit confidence 0)
is dropped, so the output is two segments whose boundary indices do not
meet: the first ends at 4 while the second starts at 7. -/
theorem trend_segments_gap_counterexample :
    Detectors.analyzeTrends gapData 2 [1, 4, 7, 10] =
      [⟨1, 4, some 1, some 1⟩, ⟨7, 10, some 1, some 1⟩] ∧
    (4 : ℕ) ≠ 7 := by
  refine ⟨?_, by decide⟩
  norm_num [Detectors.analyzeTrends, Detectors.analyzeTrendSegment,
    StatsHelper.computeLocalRegression, StatsHelper.generateWeights, gapData,
    JQ.div, JQ.mul, JQ.sub, JQ.sum, JQ.add, JQ.mean, JQ.gt,
    List.range_succ, List.filterMap, List.zipWith, List.foldr]

/-- C8 (amended): for an ascending change-point list, the returned trend
segments never overlap — the end of an earlier segment is at most the
start of a later one — and every returned segment has fit confidence
strictly above 0.5 (candidates with confidence ≤ 0.5, or NaN confidence,
are dropped); because dropped candidates leave gaps, consecutive returned
segments need not share a boundary (`trend_segments_gap_counterexample`). -/
theorem trend_segments_no_overlap (data : List ℚ) (windowSize : ℕ)
    (changePoints : List ℕ) (hs : changePoints.Sorted (· ≤ ·)) :
    (Detectors.analyzeTrends data windowSize changePoints).Pairwise
      (fun s t => s.«end» ≤ t.start) ∧
    ∀ s ∈ Detectors.analyzeTrends data windowSize changePoints,
      JQ.gt s.confidence (some (1 / 2)) = true := by
  constructor
  · unfold Detectors.analyzeTrends
    rw [List.pairwise_filterMap]
    refine (zip_tail_pairwise changePoints hs).imp ?_
    intro a a' hle b hb b' hb'
    simp only [Option.mem_def] at hb hb'
    split at hb
    · split at hb'
      · cases hb
        cases hb'
        exact hle
      · exact Option.noConfusion hb'
    · exact Option.noConfusion hb
  · intro s hsmem
    unfold Detectors.analyzeTrends at hsmem
    rw [List.mem_filterMap] at hsmem
    obtain ⟨se, _, hf⟩ := hsmem
    dsimp only at hf
    split at hf
    · cases hf
      assumption
    · exact Option.noConfusion hf

/-- C8 (witness): the no-overlap theorem at the concrete fixture; the
change-point list `[1, 4, 7, 10]` is ascending. -/
theorem trend_segments_no_overlap_witness :
    ([1, 4, 7, 10] : List ℕ).Sorted (· ≤ ·) ∧
    ((Detectors.analyzeTrends gapData 2 [1, 4, 7, 10]).Pairwise
      (fun s t => s.«end» ≤ t.start) ∧
    ∀ s ∈ Detectors.analyzeTrends gapData 2 [1, 4, 7, 10],
      JQ.gt s.confidence (some (1 / 2)) = true) :=
  ⟨by decide, trend_segments_no_overlap gapData 2 [1, 4, 7, 10] (by decide)⟩

namespace Ultimate

theorem computeAutocorrelation_length (a : Analyzer) (maxLag : ℕ) :
    (computeAutocorrelation a maxLag).length = maxLag := by
  simp [computeAutocorrelation]

/-- Peaks of `findPeaks` sit strictly inside the curve: the reported lag is
at least 2 and at most `len - 1`. -/
theorem mem_findPeaks (acf : List JQ) (p : Peak) (hp : p ∈ findPeaks acf) :
    2 ≤ p.index ∧ p.index + 1 ≤ acf.length := by
  unfold findPeaks at hp
  rw [List.mem_filterMap] at hp
  obtain ⟨i, _, hf⟩ := hp
  split at hf
  · rename_i hcond
    split at hf
    · split at hf
      · cases hf
        dsimp only
        omega
      · exact Option.noConfusion hf
    · exact Option.noConfusion hf
  · exact Option.noConfusion hf

/-- Structure of a detected cycle: its period is a peak lag (between 2 and
`maxLag - 1`) and its confidence is `assessPeriodConfidence` of its period
and strength. -/
theorem mem_detectPeriodicity (a : Analyzer) (c : Cycle)
    (hc : c ∈ detectPeriodicity a) :
    (2 ≤ c.period ∧ c.period + 1 ≤ a.data.length / 3) ∧
    c.confidence = assessPeriodConfidence a c.period c.strength := by
  unfold detectPeriodicity at hc
  rw [(List.mergeSort_perm _ _).mem_iff, List.mem_map] at hc
  obtain ⟨p, hp, rfl⟩ := hc
  have hb := mem_findPeaks _ p hp
  rw [computeAutocorrelation_length] at hb
  exact ⟨hb, rfl⟩

end Ultimate

/-- C10: every cycle reported by `detectPeriodicity` has a period between
2 and `⌊n/3⌋ - 1`; in particular period 1 is never reported, since the
first and last positions of the autocorrelation curve cannot be strict
interior peaks. -/
theorem cycle_period_bounds (data ts : List ℚ) (opts : AnalysisOptions) :
    ∀ c ∈ Ultimate.detectPeriodicity (Ultimate.mk data ts opts),
      2 ≤ c.period ∧ c.period ≤ data.length / 3 - 1 := by
  intro c hc
  have h := (Ultimate.mem_detectPeriodicity _ c hc).1
  have hd : (Ultimate.mk data ts opts).data = data := rfl
  rw [hd] at h
  omega

/-- C6: the cycles of `detectPeriodicity` are sorted in descending order
of strength, and every cycle's confidence equals
`strength × coverage × (1 − |0.5 − period/n|)` with
`coverage = period·⌊n/period⌋/n`. -/
theorem cycles_sorted_and_confidence (data ts : List ℚ)
    (opts : AnalysisOptions) :
    (Ultimate.detectPeriodicity (Ultimate.mk data ts opts)).Pairwise
      (fun c d => d.strength ≤ c.strength) ∧
    ∀ c ∈ Ultimate.detectPeriodicity (Ultimate.mk data ts opts),
      c.confidence = c.strength *
        (((c.period * (data.length / c.period) : ℕ) : ℚ) / (data.length : ℚ))
        * (1 - |1 / 2 - (c.period : ℚ) / (data.length : ℚ)|) := by
  constructor
  · unfold Ultimate.detectPeriodicity
    have hs := @List.sorted_mergeSort Ultimate.Cycle
      (fun c d : Ultimate.Cycle => decide (d.strength ≤ c.strength))
      (fun a b c hab hbc => by
        simp only [decide_eq_true_eq] at *
        exact le_trans hbc hab)
      (fun a b => by
        simp only [Bool.or_eq_true, decide_eq_true_eq]
        exact le_total b.strength a.strength)
      ((Ultimate.findPeaks
        (Ultimate.computeAutocorrelation (Ultimate.mk data ts opts)
          ((Ultimate.mk data ts opts).data.length / 3))).map (fun p =>
            Ultimate.Cycle.mk p.index p.value
              (Ultimate.assessPeriodConfidence (Ultimate.mk data ts opts)
                p.index p.value)))
    exact hs.imp (fun h => by simpa using h)
  · intro c hc
    have h := (Ultimate.mem_detectPeriodicity _ c hc).2
    rw [h]
    rfl

/-- Concrete period-4 fixture: four repetitions of `0, 1, 0, -1`. -/
def periodicData : List ℚ :=
  [0, 1, 0, -1, 0, 1, 0, -1, 0, 1, 0, -1, 0, 1, 0, -1]

/-- The analyzer built from the period-4 fixture with default options. -/
def periodicAnalyzer : Ultimate.Analyzer :=
  Ultimate.mk periodicData (List.replicate 16 0) {}

theorem periodic_acf :
    Ultimate.computeAutocorrelation periodicAnalyzer 5 =
      [some 0, some (-1), some 0, some 1, some 0] := by
  norm_num [Ultimate.computeAutocorrelation, qmean, qvariance, periodicData,
    periodicAnalyzer, Ultimate.mk, JQ.div, defaultContextWindow,
    List.range', List.range_succ]

theorem periodic_peaks :
    Ultimate.findPeaks [some 0, some (-1), some 0, some 1, some 0] =
      [⟨4, 1⟩] := by
  norm_num [Ultimate.findPeaks, List.range_succ, List.filterMap]

theorem periodic_cycles :
    Ultimate.detectPeriodicity periodicAnalyzer = [⟨4, 1, 3 / 4⟩] := by
  have hlen : periodicAnalyzer.data.length = 16 := by
    norm_num [periodicAnalyzer, Ultimate.mk, periodicData]
  unfold Ultimate.detectPeriodicity
  rw [hlen]
  norm_num [periodic_acf, periodic_peaks, Ultimate.assessPeriodConfidence,
    hlen, List.mergeSort, abs_of_nonneg (show (0 : ℚ) ≤ 1 / 4 by norm_num)]

/-- C6 (witness): the sortedness/confidence theorem at the period-4
fixture, instantiated at its single detected cycle
`period 4, strength 1, confidence 3/4`. -/
theorem cycles_sorted_and_confidence_witness :
    (⟨4, 1, 3 / 4⟩ : Ultimate.Cycle) ∈
      Ultimate.detectPeriodicity (Ultimate.mk periodicData
        (List.replicate 16 0) {}) ∧
    (3 / 4 : ℚ) = 1 *
      (((4 * (periodicData.length / 4) : ℕ) : ℚ) / (periodicData.length : ℚ))
      * (1 - |1 / 2 - (4 : ℚ) / (periodicData.length : ℚ)|) := by
  have hmem : (⟨4, 1, 3 / 4⟩ : Ultimate.Cycle) ∈
      Ultimate.detectPeriodicity (Ultimate.mk periodicData
        (List.replicate 16 0) {}) := by
    rw [show Ultimate.mk periodicData (List.replicate 16 0) {} =
      periodicAnalyzer from rfl, periodic_cycles]
    exact List.mem_singleton.mpr rfl
  exact ⟨hmem,
    (cycles_sorted_and_confidence periodicData (List.replicate 16 0) {}).2
      ⟨4, 1, 3 / 4⟩ hmem⟩

/-- C10 (witness): the period-bounds theorem at the period-4 fixture: its
cycle has period 4, and `2 ≤ 4 ≤ ⌊16/3⌋ - 1 = 4`. -/
theorem cycle_period_bounds_witness :
    (⟨4, 1, 3 / 4⟩ : Ultimate.Cycle) ∈
      Ultimate.detectPeriodicity (Ultimate.mk periodicData
        (List.replicate 16 0) {}) ∧
    (2 ≤ 4 ∧ 4 ≤ periodicData.length / 3 - 1) := by
  have hmem : (⟨4, 1, 3 / 4⟩ : Ultimate.Cycle) ∈
      Ultimate.detectPeriodicity (Ultimate.mk periodicData
        (List.replicate 16 0) {}) := by
    rw [show Ultimate.mk periodicData (List.replicate 16 0) {} =
      periodicAnalyzer from rfl, periodic_cycles]
    exact List.mem_singleton.mpr rfl
  exact ⟨hmem,
    cycle_period_bounds periodicData (List.replicate 16 0) {}
      ⟨4, 1, 3 / 4⟩ hmem⟩

namespace Ultimate

/-- A window whose weights are nonnegative and contain a positive one has
a positive weight sum, so its local regression is a defined weighted
mean. -/
theorem computeLocalRegression_some (window : List (ℚ × ℚ))
    (h0 : ∀ vw ∈ window, 0 ≤ vw.2) (hp : ∃ vw ∈ window, 0 < vw.2) :
    ∃ t, computeLocalRegression window = some t := by
  obtain ⟨vw, hmem, hpos⟩ := hp
  have hnn : ∀ w ∈ window.map (fun vw => vw.2), 0 ≤ w := by
    intro w hw
    obtain ⟨x, hx, rfl⟩ := List.mem_map.mp hw
    exact h0 x hx
  have hle : vw.2 ≤ (window.map (fun vw => vw.2)).sum :=
    List.single_le_sum hnn _ (List.mem_map_of_mem _ hmem)
  have hsum : 0 < (window.map (fun vw => vw.2)).sum := lt_of_lt_of_le hpos hle
  exact ⟨_, JQ.div_some_of_ne _ _ (ne_of_gt hsum)⟩

/-- The window at a valid index is nonempty and its first weight is
`tricubeWeight 0 = 1` (this needs `contextWindow ≥ 1`, which the
constructor guarantees; at `contextWindow = 0` the JS weight would be
`tricubeWeight(0/0) = NaN`, unreachable through `mk`). -/
theorem getLocalWindow_first_weight (a : Analyzer) (i : ℕ)
    (hi : i < a.data.length) :
    ∃ v rest, getLocalWindow a i = (v, 1) :: rest := by
  unfold getLocalWindow
  set start := i - a.contextWindow with hstart
  set stop := min a.data.length (i + a.contextWindow + 1) with hstop
  have hlen : 0 < ((a.data.drop start).take (stop - start)).length := by
    rw [List.length_take, List.length_drop]
    have h1 : start ≤ i := by omega
    have h2 : i < stop := by omega
    omega
  obtain ⟨v, rest, hvr⟩ := List.exists_cons_of_ne_nil
    (List.ne_nil_of_length_pos hlen)
  simp only [hvr, List.enum_cons, List.map_cons, Nat.cast_zero, zero_div,
    tricubeWeight_zero]
  exact ⟨v, _, rfl⟩

/-- Every weight produced by `getLocalWindow` is nonnegative. -/
theorem getLocalWindow_weights_nonneg (a : Analyzer) (i : ℕ) :
    ∀ vw ∈ getLocalWindow a i, 0 ≤ vw.2 := by
  intro vw hvw
  unfold getLocalWindow at hvw
  simp only [List.mem_map] at hvw
  obtain ⟨jv, _, rfl⟩ := hvw
  exact tricubeWeight_nonneg _

/-- The smoothed trend is defined (`some`) at every valid index. -/
theorem computeRobustTrend_getD_eq_some (a : Analyzer) (i : ℕ)
    (hi : i < a.data.length) :
    ∃ t, (computeRobustTrend a).getD i none = some t := by
  have hgd : (computeRobustTrend a).getD i none =
      computeLocalRegression (getLocalWindow a i) := by
    unfold computeRobustTrend
    rw [List.getD_eq_getElem?_getD, List.getElem?_map, List.getElem?_range hi]
    rfl
  rw [hgd]
  obtain ⟨v, rest, hvr⟩ := getLocalWindow_first_weight a i hi
  exact computeLocalRegression_some _ (getLocalWindow_weights_nonneg a i)
    ⟨(v, 1), by rw [hvr]; exact List.mem_cons_self _ _, by norm_num⟩

/-- The seasonal component is defined (`some`) at every valid index:
either no cycle was found (all-zero case) or the dominant-period bucket at
`i % period` is nonempty, making its mean defined. -/
theorem extractSeasonalComponent_getD_eq_some (a : Analyzer) (i : ℕ)
    (hi : i < a.data.length) :
    ∃ s, (extractSeasonalComponent a).getD i none = some s := by
  cases hdp : detectPeriodicity a with
  | nil =>
    have hsea : extractSeasonalComponent a =
        List.replicate a.data.length (some 0) := by
      unfold extractSeasonalComponent
      rw [hdp]
    refine ⟨0, ?_⟩
    rw [hsea, List.getD_eq_getElem?_getD, List.getElem?_replicate, if_pos hi]
    rfl
  | cons p₀ tl =>
    have hsea : extractSeasonalComponent a =
        (List.range a.data.length).map (fun j =>
          ((List.range p₀.period).map (fun k =>
            qmean (((List.range a.data.length).filter
              (fun j' => j' % p₀.period = k)).map
              (fun j' => a.data.getD j' 0)))).getD (j % p₀.period) none) := by
      unfold extractSeasonalComponent
      rw [hdp]
    have hb := (mem_detectPeriodicity a p₀
      (hdp.symm ▸ List.mem_cons_self p₀ tl)).1
    have hdp0 : 0 < p₀.period := by omega
    have hdplt : p₀.period < a.data.length := by
      have := Nat.div_le_self a.data.length 3
      omega
    have hmod : i % p₀.period < p₀.period := Nat.mod_lt i hdp0
    have hbucket : (i % p₀.period) ∈ (List.range a.data.length).filter
        (fun j' => j' % p₀.period = i % p₀.period) := by
      rw [List.mem_filter]
      refine ⟨List.mem_range.mpr (lt_trans hmod hdplt), ?_⟩
      simp [Nat.mod_eq_of_lt hmod]
    have hlen : (((List.range a.data.length).filter
        (fun j' => j' % p₀.period = i % p₀.period)).map
        (fun j' => a.data.getD j' 0)).length ≠ 0 := by
      rw [List.length_map]
      have := List.length_pos.mpr (List.ne_nil_of_mem hbucket)
      omega
    have heq : (extractSeasonalComponent a).getD i none =
        qmean (((List.range a.data.length).filter
          (fun j' => j' % p₀.period = i % p₀.period)).map
          (fun j' => a.data.getD j' 0)) := by
      rw [hsea, List.getD_eq_getElem?_getD, List.getElem?_map,
        List.getElem?_range hi]
      show ((List.range p₀.period).map (fun k =>
        qmean (((List.range a.data.length).filter
          (fun j' => j' % p₀.period = k)).map
          (fun j' => a.data.getD j' 0)))).getD (i % p₀.period) none = _
      rw [List.getD_eq_getElem?_getD, List.getElem?_map,
        List.getElem?_range hmod]
      rfl
    rw [heq]
    unfold qmean
    rw [if_neg hlen]
    exact ⟨_, rfl⟩

end Ultimate

namespace Ultimate

/-- Residual entry at a valid index: `data[i] - trend[i] - seasonal[i]` in
NaN-propagating arithmetic. -/
theorem computeResiduals_getD (data : List ℚ) (trend seasonal : List JQ)
    (i : ℕ) (hi : i < data.length) :
    (computeResiduals data trend seasonal).getD i none =
      JQ.sub (JQ.sub (some (data.getD i 0)) (trend.getD i none))
        (seasonal.getD i none) := by
  unfold computeResiduals
  rw [List.getD_eq_getElem?_getD, List.getElem?_map, List.getElem?_range hi]
  rfl

end Ultimate

/-- C1: for every input series and every index, the decomposition of
`decomposeSeries` satisfies `trend[i] + seasonal[i] + residuals[i] ==
data[i]` — exactly, hence within the 1e-9 tolerance — because the residual
is computed last as `data − trend − seasonal` and both the trend and the
seasonal entries are defined numbers at every valid index. -/
theorem decomposition_invariant (data ts : List ℚ) (opts : AnalysisOptions)
    (i : ℕ) (hi : i < data.length) :
    ∃ t s r,
      (Ultimate.decomposeSeries (Ultimate.mk data ts opts)).trend.getD
        i none = some t ∧
      (Ultimate.decomposeSeries (Ultimate.mk data ts opts)).seasonal.getD
        i none = some s ∧
      (Ultimate.decomposeSeries (Ultimate.mk data ts opts)).residuals.getD
        i none = some r ∧
      t + s + r = data.getD i 0 ∧
      |t + s + r - data.getD i 0| ≤ 1 / 1000000000 := by
  set a := Ultimate.mk data ts opts with ha
  have hia : i < a.data.length := hi
  obtain ⟨t, hT⟩ := Ultimate.computeRobustTrend_getD_eq_some a i hia
  obtain ⟨s, hS⟩ := Ultimate.extractSeasonalComponent_getD_eq_some a i hia
  have htr : (Ultimate.decomposeSeries a).trend = Ultimate.computeRobustTrend a :=
    rfl
  have hse : (Ultimate.decomposeSeries a).seasonal =
      Ultimate.extractSeasonalComponent a := rfl
  have hre : (Ultimate.decomposeSeries a).residuals =
      Ultimate.computeResiduals a.data (Ultimate.computeRobustTrend a)
        (Ultimate.extractSeasonalComponent a) := rfl
  refine ⟨t, s, a.data.getD i 0 - t - s, ?_, ?_, ?_, ?_, ?_⟩
  · rw [htr]; exact hT
  · rw [hse]; exact hS
  · rw [hre, Ultimate.computeResiduals_getD a.data _ _ i hia, hT, hS]
    rfl
  · show t + s + (a.data.getD i 0 - t - s) = data.getD i 0
    ring_nf
    rfl
  · show |t + s + (a.data.getD i 0 - t - s) - data.getD i 0| ≤ 1 / 1000000000
    have : t + s + (a.data.getD i 0 - t - s) - data.getD i 0 = 0 := by
      show t + s + (data.getD i 0 - t - s) - data.getD i 0 = 0
      ring
    rw [this]
    norm_num

/-- C1 (witness): the decomposition invariant at the period-4 fixture,
index 0. -/
theorem decomposition_invariant_witness :
    0 < periodicData.length ∧
    ∃ t s r,
      (Ultimate.decomposeSeries (Ultimate.mk periodicData
        (List.replicate 16 0) {})).trend.getD 0 none = some t ∧
      (Ultimate.decomposeSeries (Ultimate.mk periodicData
        (List.replicate 16 0) {})).seasonal.getD 0 none = some s ∧
      (Ultimate.decomposeSeries (Ultimate.mk periodicData
        (List.replicate 16 0) {})).residuals.getD 0 none = some r ∧
      t + s + r = periodicData.getD 0 0 ∧
      |t + s + r - periodicData.getD 0 0| ≤ 1 / 1000000000 :=
  ⟨by norm_num [periodicData],
    decomposition_invariant periodicData (List.replicate 16 0) {} 0
      (by norm_num [periodicData])⟩
